import Mathlib

/-!
Shallow embedding of the timeleapcam capture-and-storage pipeline.

Files are modelled as lists of bytes (`List Nat`, each byte < 256 where it
matters), file writes as in-place overwrites at a position (zero-padding any
gap, as POSIX seek-past-end + write does), and the stateful Rust structs
(`ImageFiles`, `WriteThread`'s shared queue) as Lean structures with explicit
state passing.  Machine-width effects are kept where they are observable:
multi-byte header fields are stored byte-by-byte exactly as the source
extracts them (`(x >> 8k) & 0xFF`), so a value round-trips through the file
only below the field's width.
-/

namespace TimeLeapCam

/-- Little-endian 4-byte encoding, mirroring the `(size >> 8k) & 0xFF` byte
extractions in `write_image`. -/
def u32LE (n : Nat) : List Nat :=
  [n % 256, n / 256 % 256, n / 65536 % 256, n / 16777216 % 256]

/-- Little-endian 8-byte encoding, mirroring `write_image_end`'s
`(total_size >> 8k) & 0xFF` byte extractions. -/
def u64LE (n : Nat) : List Nat :=
  [n % 256, n / 256 % 256, n / 65536 % 256, n / 16777216 % 256,
   n / 4294967296 % 256, n / 1099511627776 % 256,
   n / 281474976710656 % 256, n / 72057594037927936 % 256]

/-- Little-endian 4-byte decoding, mirroring the shift-and-add reconstruction
of the image count / record size in `ImageFiles::new` and `get_image_size`. -/
def leU32 (b0 b1 b2 b3 : Nat) : Nat :=
  b0 + b1 * 256 + b2 * 65536 + b3 * 16777216

/-- Little-endian 8-byte decoding, mirroring the reconstruction of the
total-size field in `ImageFiles::new`. -/
def leU64 (b0 b1 b2 b3 b4 b5 b6 b7 : Nat) : Nat :=
  b0 + b1 * 256 + b2 * 65536 + b3 * 16777216 +
  b4 * 4294967296 + b5 * 1099511627776 +
  b6 * 281474976710656 + b7 * 72057594037927936

theorem leU32_u32LE (n : Nat) :
    leU32 (n % 256) (n / 256 % 256) (n / 65536 % 256) (n / 16777216 % 256) =
      n % 4294967296 := by
  unfold leU32
  omega

theorem leU64_u64LE (n : Nat) :
    leU64 (n % 256) (n / 256 % 256) (n / 65536 % 256) (n / 16777216 % 256)
      (n / 4294967296 % 256) (n / 1099511627776 % 256)
      (n / 281474976710656 % 256) (n / 72057594037927936 % 256) =
      n % 18446744073709551616 := by
  unfold leU64
  omega

/-- Overwrite the bytes of `f` at positions `pos..pos+d.length` with `d`,
zero-filling any gap between the end of `f` and `pos` (seek past end then
write). -/
def writeBytes (f : List Nat) (pos : Nat) (d : List Nat) : List Nat :=
  (f ++ List.replicate (pos - f.length) 0).take pos ++ d ++ f.drop (pos + d.length)

/-- Read up to `n` bytes of `f` starting at `pos`; returns the bytes actually
available, like a POSIX read near end-of-file. -/
def readBytesFrom (f : List Nat) (pos n : Nat) : List Nat :=
  (f.drop pos).take n

theorem length_take_pad (f : List Nat) (pos : Nat) :
    ((f ++ List.replicate (pos - f.length) 0).take pos).length = pos := by
  simp [List.length_take, List.length_append, List.length_replicate]
  omega

/-- The bytes placed by `writeBytes` are found at `pos`. -/
theorem writeBytes_drop (f : List Nat) (pos : Nat) (d : List Nat) :
    (writeBytes f pos d).drop pos = d ++ f.drop (pos + d.length) := by
  unfold writeBytes
  rw [List.append_assoc, List.drop_left' (length_take_pad f pos)]

/-- Writing at position 0 replaces a prefix. -/
theorem writeBytes_zero (f : List Nat) (d : List Nat) :
    writeBytes f 0 d = d ++ f.drop d.length := by
  unfold writeBytes
  simp

/-- Writing right after a previous write at 0 extends the written prefix. -/
theorem writeBytes_append_at_end (f d c : List Nat) :
    writeBytes (writeBytes f 0 d) d.length c = writeBytes f 0 (d ++ c) := by
  rw [writeBytes_zero, writeBytes_zero]
  unfold writeBytes
  have h0 : d.length - (d ++ f.drop d.length).length = 0 := by
    simp
  rw [h0]
  simp only [List.replicate_zero, List.append_nil]
  rw [List.take_left' rfl, List.drop_append c.length, List.drop_drop,
      List.length_append, List.append_assoc]

/-! ## Container Format Engine (`src/imagefiles.rs`) -/

def IMAGE_HEADER_SIZE : Nat := 8
def MAX_QUEUE_SIZE : Nat := 4 * 1024 * 1024
def MAX_TEMP_BUF_SIZE : Nat := 8 * 1024

inductive OpenMode where
  | Read
  | Write
  | Append
deriving DecidableEq, Repr

/-- The fresh `FILE_HEADER`: magic tag "TCAM" followed by a zero image count (4 bytes)
and a zero total size (8 bytes). -/
def FILE_HEADER : List Nat :=
  [84, 67, 65, 77, 0, 0, 0, 0, 0, 0, 0, 0, 0, 0, 0, 0]

/-- The in-memory state of `ImageFiles`, with the file contents inlined
(the timing diagnostics `total_copy_time`/`total_write_time` carry no
observable behaviour and are omitted). -/
structure ImageFiles where
  file : List Nat
  nimages : Nat
  read_pos : Nat
  write_pos : Nat
  total_size : Nat
  write_count : Nat
deriving Repr, DecidableEq

/-- The 16-byte header buffer produced by `let mut header = [0;16];
file.read(&mut header)`: the available prefix of the file, zero-filled. -/
def headerBuf (f : List Nat) : List Nat :=
  (f ++ List.replicate 16 0).take 16

/-- The image count decoded from header bytes 4..8 in `ImageFiles::new`. -/
def storedNImages (f : List Nat) : Nat :=
  leU32 ((headerBuf f).getD 4 0) ((headerBuf f).getD 5 0)
    ((headerBuf f).getD 6 0) ((headerBuf f).getD 7 0)

/-- The total size decoded from header bytes 8..16 in `ImageFiles::new`. -/
def storedTotalSize (f : List Nat) : Nat :=
  leU64 ((headerBuf f).getD 8 0) ((headerBuf f).getD 9 0)
    ((headerBuf f).getD 10 0) ((headerBuf f).getD 11 0)
    ((headerBuf f).getD 12 0) ((headerBuf f).getD 13 0)
    ((headerBuf f).getD 14 0) ((headerBuf f).getD 15 0)

/-- The magic-tag check loop of `ImageFiles::new`: bytes 0..4 must match
`FILE_HEADER`. -/
def magicOk (f : List Nat) : Bool :=
  decide ((headerBuf f).getD 0 0 = 84 ∧ (headerBuf f).getD 1 0 = 67 ∧
          (headerBuf f).getD 2 0 = 65 ∧ (headerBuf f).getD 3 0 = 77)

/-- Embeds `ImageFiles::new(directory, mode)`.  Write mode rewrites the file header
in place; Read/Append check the magic tag, Read failing hard and Append
rewriting the header; otherwise count and size come from the stored header.
The filesystem `open` itself is modelled as succeeding. -/
def ImageFiles.new (f : List Nat) (mode : OpenMode) : Except String ImageFiles :=
  if mode = OpenMode.Write then
    Except.ok {
      file := writeBytes f 0 FILE_HEADER
      nimages := 0
      read_pos := 16
      write_pos := 16
      total_size := 0
      write_count := 0 }
  else
    if magicOk f then
      Except.ok {
        file := f
        nimages := storedNImages f
        read_pos := 16
        write_pos := if mode = OpenMode.Append then storedTotalSize f + 16
          else 16
        total_size := storedTotalSize f
        write_count := 0 }
    else
      if mode = OpenMode.Read then
        Except.error "Invalid file header"
      else
        Except.ok {
          file := writeBytes f 0 FILE_HEADER
          nimages := 0
          read_pos := 16
          write_pos := 16
          total_size := 0
          write_count := 0 }

/-- The temp-buffer copy loop of `write_image`: the payload is written in
chunks of at most `MAX_TEMP_BUF_SIZE` bytes, sequentially after `pos`.  The
`fuel` argument (instantiated with the buffer length, an upper bound on the
chunk count) only makes the recursion structural; `writeChunked_eq` shows the
chunk granularity is invisible in the resulting bytes. -/
def writeChunked : Nat → List Nat → Nat → List Nat → List Nat
  | 0, f, pos, buf => writeBytes f pos buf
  | fuel + 1, f, pos, buf =>
    if MAX_TEMP_BUF_SIZE < buf.length then
      writeChunked fuel (writeBytes f pos (buf.take MAX_TEMP_BUF_SIZE))
        (pos + MAX_TEMP_BUF_SIZE) (buf.drop MAX_TEMP_BUF_SIZE)
    else
      writeBytes f pos buf

/-- Embeds `ImageFiles::write_image(buffer)`: seek to `write_pos`, write the 8-byte
"DATA" record header carrying the payload length, then the payload (via the
temp-buffer loop); advance the cursor and running totals. -/
def ImageFiles.write_image (st : ImageFiles) (buffer : List Nat) : ImageFiles :=
  let size := buffer.length
  let hdr := [68, 65, 84, 65] ++ u32LE size
  let f1 := writeBytes st.file st.write_pos hdr
  let f2 := writeChunked buffer.length f1 (st.write_pos + IMAGE_HEADER_SIZE) buffer
  { st with
    file := f2
    write_count := st.write_count + 1
    write_pos := st.write_pos + (size + IMAGE_HEADER_SIZE)
    total_size := st.total_size + (size + IMAGE_HEADER_SIZE)
    nimages := st.nimages + 1 }

/-- Embeds `ImageFiles::write_image_end()`: write the "END" marker at the write
cursor, then rewrite the image-count (offset 4) and total-size (offset 8)
fields of the file header. -/
def ImageFiles.write_image_end (st : ImageFiles) : ImageFiles :=
  let f1 := writeBytes st.file st.write_pos [69, 78, 68, 0, 0, 0, 0, 0]
  let f2 := writeBytes f1 4 (u32LE st.nimages)
  let f3 := writeBytes f2 8 (u64LE st.total_size)
  { st with file := f3, write_pos := st.write_pos + IMAGE_HEADER_SIZE }

/-- Embeds `ImageFiles::get_image_size()`: bounds-check the read cursor, read an
8-byte record header, demand the "DATA" tag and decode the payload length
(an "END" tag or anything else yields 0). -/
def ImageFiles.get_image_size (st : ImageFiles) : Nat :=
  if st.total_size + 16 ≤ st.read_pos then 0
  else
    let hdr := readBytesFrom st.file st.read_pos IMAGE_HEADER_SIZE
    if hdr.length ≠ IMAGE_HEADER_SIZE then 0
    else if hdr.getD 0 0 = 68 ∧ hdr.getD 1 0 = 65 ∧ hdr.getD 2 0 = 84 ∧
            hdr.getD 3 0 = 65 then
      leU32 (hdr.getD 4 0) (hdr.getD 5 0) (hdr.getD 6 0) (hdr.getD 7 0)
    else 0

/-- Embeds `ImageFiles::read_image()`: a zero record size is an error; otherwise
read the payload into a zero-initialised buffer of that size and advance the
read cursor by the bytes actually read plus the record header. -/
def ImageFiles.read_image (st : ImageFiles) :
    Except String (List Nat × ImageFiles) :=
  let size := st.get_image_size
  if size = 0 then Except.error "Failed to get image size at Read"
  else
    let avail := readBytesFrom st.file (st.read_pos + IMAGE_HEADER_SIZE) size
    let bytes_read := avail.length
    let buffer := avail ++ List.replicate (size - bytes_read) 0
    Except.ok (buffer,
      { st with read_pos := st.read_pos + (bytes_read + IMAGE_HEADER_SIZE) })

/-- Embeds `ImageFiles::get_nof_images()`. -/
def ImageFiles.get_nof_images (st : ImageFiles) : Nat :=
  st.nimages

/-- The "END" marker record written by `write_image_end`. -/
def END_MARKER : List Nat := [69, 78, 68, 0, 0, 0, 0, 0]

/-! ### Collapse lemmas for sequential writes -/

theorem writeBytes_adjacent (f : List Nat) (pos : Nat) (a b : List Nat) :
    writeBytes (writeBytes f pos a) (pos + a.length) b =
      writeBytes f pos (a ++ b) := by
  unfold writeBytes
  set P := (f ++ List.replicate (pos - f.length) 0).take pos with hPdef
  have hP : P.length = pos := length_take_pad f pos
  have h1 : pos + a.length - (P ++ a ++ f.drop (pos + a.length)).length = 0 := by
    simp only [List.length_append, hP]
    omega
  rw [h1]
  simp only [List.replicate_zero, List.append_nil]
  rw [List.take_left' (show (P ++ a).length = pos + a.length by
        simp only [List.length_append, hP])]
  rw [show pos + a.length + b.length = (P ++ a).length + b.length by
        simp only [List.length_append, hP]]
  rw [List.drop_append b.length, List.drop_drop]
  simp only [List.append_assoc, List.length_append, Nat.add_assoc]

theorem writeChunked_eq (fuel : Nat) : ∀ (f : List Nat) (pos : Nat) (buf : List Nat),
    writeChunked fuel f pos buf = writeBytes f pos buf := by
  induction fuel with
  | zero => intro f pos buf; rfl
  | succ fuel ih =>
    intro f pos buf
    show (if MAX_TEMP_BUF_SIZE < buf.length then _ else _) = _
    by_cases h8 : MAX_TEMP_BUF_SIZE < buf.length
    · rw [if_pos h8, ih]
      have htk : (buf.take MAX_TEMP_BUF_SIZE).length = MAX_TEMP_BUF_SIZE := by
        simp [List.length_take]
        omega
      rw [show pos + MAX_TEMP_BUF_SIZE =
            pos + (buf.take MAX_TEMP_BUF_SIZE).length by rw [htk]]
      rw [writeBytes_adjacent, List.take_append_drop]
    · rw [if_neg h8]

/-- Patching inside an already-written prefix rewrites that prefix. -/
theorem writeBytes_inner (f d c : List Nat) (p : Nat)
    (h : p + c.length ≤ d.length) :
    writeBytes (writeBytes f 0 d) p c =
      writeBytes f 0 (d.take p ++ c ++ d.drop (p + c.length)) := by
  rw [writeBytes_zero, writeBytes_zero]
  unfold writeBytes
  have hg : (d ++ f.drop d.length).length = d.length + (f.drop d.length).length := by
    simp
  have h1 : p - (d ++ f.drop d.length).length = 0 := by omega
  rw [h1]
  simp only [List.replicate_zero, List.append_nil]
  rw [List.take_append_of_le_length (by omega),
      List.drop_append_of_le_length (by omega)]
  have hlen : (d.take p ++ c ++ d.drop (p + c.length)).length = d.length := by
    simp [List.length_take, List.length_drop]
    omega
  rw [hlen]
  simp [List.append_assoc]

theorem readBytesFrom_writeBytes_zero (f0 D : List Nat) (p n : Nat)
    (h : p + n ≤ D.length) :
    readBytesFrom (writeBytes f0 0 D) p n = (D.drop p).take n := by
  rw [writeBytes_zero]
  unfold readBytesFrom
  rw [List.drop_append_of_le_length (by omega),
      List.take_append_of_le_length (by simp [List.length_drop]; omega)]

/-! ### Write-session characterisation -/

/-- The on-disk record of one image: "DATA" tag, little-endian length, and
the payload. -/
def record (b : List Nat) : List Nat :=
  [68, 65, 84, 65] ++ u32LE b.length ++ b

/-- The concatenated records of a sequence of images. -/
def records : List (List Nat) → List Nat
  | [] => []
  | b :: bs => record b ++ records bs

theorem record_length (b : List Nat) : (record b).length = b.length + 8 := by
  simp [record, u32LE]

theorem records_length (bs : List (List Nat)) :
    (records bs).length = (bs.map (fun b => b.length + 8)).sum := by
  induction bs with
  | nil => simp [records]
  | cons b bs ih => simp [records, record_length, ih]

/-- A full write session: open (or re-initialise) the container in Write
mode, write every buffer, then finalize with `write_image_end`. -/
def writeSession (f0 : List Nat) (bufs : List (List Nat)) :
    Except String ImageFiles :=
  match ImageFiles.new f0 OpenMode.Write with
  | Except.error e => Except.error e
  | Except.ok st =>
    Except.ok (ImageFiles.write_image_end (bufs.foldl ImageFiles.write_image st))

/-- The container file contents produced by a full write session. -/
def sessionFile (f0 : List Nat) (bufs : List (List Nat)) : List Nat :=
  match writeSession f0 bufs with
  | Except.ok st => st.file
  | Except.error _ => []

/-- Runs `read_image` iterated `k` times, collecting the buffers in order. -/
def readAll : Nat → ImageFiles → Except String (List (List Nat))
  | 0, _ => Except.ok []
  | k + 1, st =>
    match st.read_image with
    | Except.error e => Except.error e
    | Except.ok (b, st') =>
      match readAll k st' with
      | Except.error e => Except.error e
      | Except.ok bs => Except.ok (b :: bs)

/-- Reopen a container file in Read mode and read `k` images sequentially. -/
def readSession (f : List Nat) (k : Nat) : Except String (List (List Nat)) :=
  match ImageFiles.new f OpenMode.Read with
  | Except.error e => Except.error e
  | Except.ok st => readAll k st

theorem foldl_write_image_spec (bufs : List (List Nat)) :
    ∀ (f0 D : List Nat) (st : ImageFiles),
    st.file = writeBytes f0 0 D → st.write_pos = D.length →
    (bufs.foldl ImageFiles.write_image st).file =
        writeBytes f0 0 (D ++ records bufs) ∧
    (bufs.foldl ImageFiles.write_image st).write_pos =
        D.length + (records bufs).length ∧
    (bufs.foldl ImageFiles.write_image st).total_size =
        st.total_size + (records bufs).length ∧
    (bufs.foldl ImageFiles.write_image st).nimages =
        st.nimages + bufs.length ∧
    (bufs.foldl ImageFiles.write_image st).read_pos = st.read_pos ∧
    (bufs.foldl ImageFiles.write_image st).write_count =
        st.write_count + bufs.length := by
  induction bufs with
  | nil =>
    intro f0 D st hfile hpos
    simp [records, hfile, hpos]
  | cons b bs ih =>
    intro f0 D st hfile hpos
    have hstep : (ImageFiles.write_image st b).file =
        writeBytes f0 0 (D ++ record b) := by
      show (writeChunked b.length (writeBytes st.file st.write_pos
          ([68, 65, 84, 65] ++ u32LE b.length))
          (st.write_pos + IMAGE_HEADER_SIZE) b) = _
      rw [writeChunked_eq, hfile, hpos]
      have h8 : ([68, 65, 84, 65] ++ u32LE b.length).length =
          IMAGE_HEADER_SIZE := by
        simp [u32LE, IMAGE_HEADER_SIZE]
      rw [writeBytes_append_at_end]
      rw [show D.length + IMAGE_HEADER_SIZE =
            (D ++ ([68, 65, 84, 65] ++ u32LE b.length)).length by
          simp [u32LE, IMAGE_HEADER_SIZE]]
      rw [writeBytes_append_at_end]
      simp [record, List.append_assoc]
    have hwp : (ImageFiles.write_image st b).write_pos =
        (D ++ record b).length := by
      show st.write_pos + (b.length + IMAGE_HEADER_SIZE) = _
      simp [hpos, record_length, List.length_append, IMAGE_HEADER_SIZE]
    have := ih f0 (D ++ record b) (ImageFiles.write_image st b) hstep hwp
    simp only [List.foldl_cons]
    refine ⟨?_, ?_, ?_, ?_, ?_, ?_⟩
    · rw [this.1]
      simp [records, List.append_assoc]
    · rw [this.2.1]
      simp [records, record_length, List.length_append]
      omega
    · rw [this.2.2.1]
      show st.total_size + (b.length + IMAGE_HEADER_SIZE) + _ = _
      simp [records, record_length, List.length_append, IMAGE_HEADER_SIZE]
      omega
    · rw [this.2.2.2.1]
      show st.nimages + 1 + bs.length = _
      simp
      omega
    · rw [this.2.2.2.2.1]
      rfl
    · rw [this.2.2.2.2.2]
      show st.write_count + 1 + bs.length = _
      simp
      omega

/-- The complete characterisation of a finalized Write-mode session:
the container file holds the magic tag, the little-endian image count and
cumulative size, the image records in order, and the END marker, followed by
whatever tail of the original file was never overwritten. -/
theorem writeSession_spec (f0 : List Nat) (bufs : List (List Nat)) :
    writeSession f0 bufs = Except.ok {
      file := writeBytes f0 0 ([84, 67, 65, 77] ++ u32LE bufs.length ++
        u64LE (records bufs).length ++ records bufs ++ END_MARKER)
      nimages := bufs.length
      read_pos := 16
      write_pos := 16 + (records bufs).length + 8
      total_size := (records bufs).length
      write_count := bufs.length } := by
  have hopen : ImageFiles.new f0 OpenMode.Write = Except.ok
      { file := writeBytes f0 0 FILE_HEADER, nimages := 0, read_pos := 16,
        write_pos := 16, total_size := 0, write_count := 0 } := rfl
  unfold writeSession
  rw [hopen]
  have hbase := foldl_write_image_spec bufs f0 FILE_HEADER
    { file := writeBytes f0 0 FILE_HEADER, nimages := 0, read_pos := 16,
      write_pos := 16, total_size := 0, write_count := 0 }
    rfl (by simp [FILE_HEADER])
  set stW := bufs.foldl ImageFiles.write_image
    { file := writeBytes f0 0 FILE_HEADER, nimages := 0, read_pos := 16,
      write_pos := 16, total_size := 0, write_count := 0 } with hstW
  obtain ⟨hf, hwp, hts, hni, hrp, hwc⟩ := hbase
  have hFH : FILE_HEADER.length = 16 := rfl
  rw [hFH] at hwp
  -- collapse the END-marker write
  have hf1 : writeBytes stW.file stW.write_pos [69, 78, 68, 0, 0, 0, 0, 0] =
      writeBytes f0 0 ((FILE_HEADER ++ records bufs) ++ END_MARKER) := by
    rw [hf, hwp]
    rw [show 16 + (records bufs).length =
        (FILE_HEADER ++ records bufs).length by simp [hFH]]
    rw [writeBytes_append_at_end]
    rfl
  -- collapse the two header patches
  have hd1 : ((FILE_HEADER ++ records bufs) ++ END_MARKER).take 4 =
      [84, 67, 65, 77] := rfl
  have hd2 : ((FILE_HEADER ++ records bufs) ++ END_MARKER).drop 8 =
      [0, 0, 0, 0, 0, 0, 0, 0] ++ (records bufs ++ END_MARKER) := rfl
  have hlen1 : (24 : Nat) ≤ ((FILE_HEADER ++ records bufs) ++ END_MARKER).length := by
    simp [hFH, END_MARKER]
    omega
  have hf2 : writeBytes (writeBytes f0 0 ((FILE_HEADER ++ records bufs) ++
      END_MARKER)) 4 (u32LE bufs.length) =
      writeBytes f0 0 (([84, 67, 65, 77] ++ u32LE bufs.length) ++
        ([0, 0, 0, 0, 0, 0, 0, 0] ++ (records bufs ++ END_MARKER))) := by
    rw [writeBytes_inner _ _ _ _ (by simp [u32LE]; omega)]
    rw [show 4 + (u32LE bufs.length).length = 8 by simp [u32LE]]
    rw [hd1, hd2]
  have hd3 : (([84, 67, 65, 77] ++ u32LE bufs.length) ++
      ([0, 0, 0, 0, 0, 0, 0, 0] ++ (records bufs ++ END_MARKER))).take 8 =
      [84, 67, 65, 77] ++ u32LE bufs.length := by
    rw [List.take_left' (by simp [u32LE])]
  have hd4 : (([84, 67, 65, 77] ++ u32LE bufs.length) ++
      ([0, 0, 0, 0, 0, 0, 0, 0] ++ (records bufs ++ END_MARKER))).drop 16 =
      records bufs ++ END_MARKER := by
    rw [show (16 : Nat) =
        ([84, 67, 65, 77] ++ u32LE bufs.length).length + 8 by simp [u32LE]]
    rw [List.drop_append]
    rfl
  have hf3 : writeBytes (writeBytes f0 0 (([84, 67, 65, 77] ++
      u32LE bufs.length) ++ ([0, 0, 0, 0, 0, 0, 0, 0] ++
      (records bufs ++ END_MARKER)))) 8 (u64LE (records bufs).length) =
      writeBytes f0 0 ([84, 67, 65, 77] ++ u32LE bufs.length ++
        u64LE (records bufs).length ++ records bufs ++ END_MARKER) := by
    rw [writeBytes_inner _ _ _ _ (by simp [u32LE, u64LE])]
    rw [show 8 + (u64LE (records bufs).length).length = 16 by simp [u64LE]]
    rw [hd3, hd4]
    simp [List.append_assoc]
  show Except.ok (ImageFiles.write_image_end stW) = _
  unfold ImageFiles.write_image_end
  simp only [hts, hni, hrp, hwc]
  rw [hf1]
  simp only [Nat.zero_add]
  rw [hf2, hf3]
  rw [hwp]
  simp [IMAGE_HEADER_SIZE]

/-! ### Read-side characterisation -/

theorem writeBytes_self (f : List Nat) : writeBytes f 0 f = f := by
  rw [writeBytes_zero, List.drop_length, List.append_nil]

theorem headerBuf_header (n T : Nat) (tail : List Nat) :
    headerBuf (([84, 67, 65, 77] ++ u32LE n ++ u64LE T) ++ tail) =
      [84, 67, 65, 77] ++ u32LE n ++ u64LE T := by
  unfold headerBuf
  rw [List.append_assoc]
  exact List.take_left' (by simp [u32LE, u64LE])

theorem magicOk_header (n T : Nat) (tail : List Nat) :
    magicOk (([84, 67, 65, 77] ++ u32LE n ++ u64LE T) ++ tail) = true := by
  unfold magicOk
  rw [headerBuf_header]
  rfl

theorem storedNImages_header (n T : Nat) (tail : List Nat) :
    storedNImages (([84, 67, 65, 77] ++ u32LE n ++ u64LE T) ++ tail) =
      n % 4294967296 := by
  unfold storedNImages
  rw [headerBuf_header]
  exact leU32_u32LE n

theorem storedTotalSize_header (n T : Nat) (tail : List Nat) :
    storedTotalSize (([84, 67, 65, 77] ++ u32LE n ++ u64LE T) ++ tail) =
      T % 18446744073709551616 := by
  unfold storedTotalSize
  rw [headerBuf_header]
  exact leU64_u64LE T

/-- Reopening any file starting with a well-formed 16-byte header in Read
mode decodes the stored count and size (modulo the field widths). -/
theorem new_read_header (n T : Nat) (tail : List Nat) :
    ImageFiles.new (([84, 67, 65, 77] ++ u32LE n ++ u64LE T) ++ tail)
      OpenMode.Read = Except.ok {
        file := ([84, 67, 65, 77] ++ u32LE n ++ u64LE T) ++ tail
        nimages := n % 4294967296
        read_pos := 16
        write_pos := 16
        total_size := T % 18446744073709551616
        write_count := 0 } := by
  unfold ImageFiles.new
  rw [if_neg (by decide : ¬ (OpenMode.Read = OpenMode.Write)),
      if_pos (magicOk_header n T tail), storedNImages_header,
      storedTotalSize_header,
      if_neg (by decide : ¬ (OpenMode.Read = OpenMode.Append))]

/-- Sequentially reading back a run of records: if the file holds the records
of `bufs` at the read cursor, within the size bound, `read_image` applied
`bufs.length` times returns exactly `bufs`. -/
theorem readAll_spec : ∀ (bufs : List (List Nat)) (f0 pre post : List Nat)
    (st : ImageFiles),
    (∀ b ∈ bufs, b ≠ [] ∧ b.length < 4294967296) →
    st.file = writeBytes f0 0 (pre ++ (records bufs ++ post)) →
    st.read_pos = pre.length →
    st.total_size + 16 = pre.length + (records bufs).length →
    readAll bufs.length st = Except.ok bufs := by
  intro bufs
  induction bufs with
  | nil => intro f0 pre post st hb hfile hpos htot; rfl
  | cons b bs ih =>
    intro f0 pre post st hb hfile hpos htot
    have hbhead := hb b (List.mem_cons_self b bs)
    have hbl : b.length % 4294967296 = b.length := Nat.mod_eq_of_lt hbhead.2
    have hrl : (records (b :: bs)).length =
        b.length + 8 + (records bs).length := by
      simp [records, record_length]
    have hIH : IMAGE_HEADER_SIZE = 8 := rfl
    have hrec : records (b :: bs) ++ post =
        ([68, 65, 84, 65] ++ u32LE b.length) ++ (b ++ (records bs ++ post)) := by
      simp [records, record, List.append_assoc]
    have hDlen : (pre ++ (records (b :: bs) ++ post)).length =
        pre.length + ((records (b :: bs)).length + post.length) := by
      simp
    have hhdr : readBytesFrom st.file st.read_pos IMAGE_HEADER_SIZE =
        [68, 65, 84, 65] ++ u32LE b.length := by
      rw [hfile, hpos]
      rw [readBytesFrom_writeBytes_zero _ _ _ _ (by rw [hDlen, hIH]; omega)]
      rw [List.drop_left' rfl, hrec]
      exact List.take_left' (by simp [u32LE, hIH])
    have hgis : st.get_image_size = b.length := by
      unfold ImageFiles.get_image_size
      rw [if_neg (by omega)]
      rw [hhdr]
      show (if ([68, 65, 84, 65] ++ u32LE b.length).length ≠ IMAGE_HEADER_SIZE
          then 0 else _) = b.length
      rw [if_neg (by simp [u32LE, IMAGE_HEADER_SIZE])]
      rw [if_pos (by exact ⟨rfl, rfl, rfl, rfl⟩)]
      show leU32 (b.length % 256) (b.length / 256 % 256)
        (b.length / 65536 % 256) (b.length / 16777216 % 256) = b.length
      rw [leU32_u32LE]
      exact hbl
    have havail : readBytesFrom st.file (st.read_pos + IMAGE_HEADER_SIZE)
        b.length = b := by
      rw [hfile, hpos]
      rw [readBytesFrom_writeBytes_zero _ _ _ _ (by rw [hDlen, hIH]; omega)]
      rw [List.drop_append IMAGE_HEADER_SIZE, hrec,
          List.drop_left' (by simp [u32LE, hIH])]
      exact List.take_left' rfl
    have hread : st.read_image = Except.ok (b,
        { st with read_pos := st.read_pos + (b.length + IMAGE_HEADER_SIZE) }) := by
      unfold ImageFiles.read_image
      rw [hgis]
      rw [if_neg (by
        intro h0
        exact hbhead.1 (List.length_eq_zero.1 h0))]
      rw [havail]
      simp
    have harg1 : st.file =
        writeBytes f0 0 ((pre ++ record b) ++ (records bs ++ post)) := by
      rw [hfile]
      congr 1
      simp [records, record, List.append_assoc]
    have harg2 : st.read_pos + (b.length + IMAGE_HEADER_SIZE) =
        (pre ++ record b).length := by
      rw [hpos]
      simp [record_length, hIH]
    have harg3 : st.total_size + 16 =
        (pre ++ record b).length + (records bs).length := by
      rw [htot, hrl]
      simp [record_length]
      omega
    have hih := ih f0 (pre ++ record b) post
      { st with read_pos := st.read_pos + (b.length + IMAGE_HEADER_SIZE) }
      (fun x hx => hb x (List.mem_cons_of_mem b hx)) harg1 harg2 harg3
    show readAll (bs.length + 1) st = Except.ok (b :: bs)
    rw [readAll, hread]
    simp only [hih]

/-- The image count reported by a container reopened in Read mode. -/
def readCount (f : List Nat) : Except String Nat :=
  match ImageFiles.new f OpenMode.Read with
  | Except.error e => Except.error e
  | Except.ok st => Except.ok st.get_nof_images

theorem sessionFile_eq (f0 : List Nat) (bufs : List (List Nat)) :
    sessionFile f0 bufs =
      ([84, 67, 65, 77] ++ u32LE bufs.length ++ u64LE (records bufs).length) ++
      ((records bufs ++ END_MARKER) ++
        f0.drop ((records bufs).length + 24)) := by
  unfold sessionFile
  rw [writeSession_spec]
  show writeBytes f0 0 ([84, 67, 65, 77] ++ u32LE bufs.length ++
    u64LE (records bufs).length ++ records bufs ++ END_MARKER) = _
  rw [writeBytes_zero]
  have hlen24 : ([84, 67, 65, 77] ++ u32LE bufs.length ++
      u64LE (records bufs).length ++ records bufs ++ END_MARKER).length =
      (records bufs).length + 24 := by
    simp [u32LE, u64LE, END_MARKER]
  rw [hlen24]
  simp [List.append_assoc]

/-! ### C1 -/

/-- C1 (amended): container round-trip.  For every initial file state and
every sequence of nonempty byte buffers (within the 32-bit record-length and
image-count field widths and the 64-bit total-size width), writing them in a
Write-mode session, finalizing, reopening in Read mode and reading
sequentially yields exactly the same buffers in the same order, and
`get_nof_images()` on the reopened container equals the number written. -/
theorem c1_container_roundtrip (f0 : List Nat) (bufs : List (List Nat))
    (hne : ∀ b ∈ bufs, b ≠ [])
    (hlen : ∀ b ∈ bufs, b.length < 4294967296)
    (hcount : bufs.length < 4294967296)
    (hsize : (records bufs).length < 18446744073709551616) :
    readSession (sessionFile f0 bufs) bufs.length = Except.ok bufs ∧
    readCount (sessionFile f0 bufs) = Except.ok bufs.length := by
  have hfile := sessionFile_eq f0 bufs
  have hopen := new_read_header bufs.length (records bufs).length
    ((records bufs ++ END_MARKER) ++ f0.drop ((records bufs).length + 24))
  rw [← hfile] at hopen
  rw [Nat.mod_eq_of_lt hcount, Nat.mod_eq_of_lt hsize] at hopen
  have hco : sessionFile f0 bufs = writeBytes (sessionFile f0 bufs) 0
      (([84, 67, 65, 77] ++ u32LE bufs.length ++
        u64LE (records bufs).length) ++
       (records bufs ++ (END_MARKER ++
        f0.drop ((records bufs).length + 24)))) := by
    rw [show (([84, 67, 65, 77] ++ u32LE bufs.length ++
        u64LE (records bufs).length) ++
        (records bufs ++ (END_MARKER ++
          f0.drop ((records bufs).length + 24)))) = sessionFile f0 bufs by
      rw [hfile]
      simp [List.append_assoc]]
    exact (writeBytes_self _).symm
  constructor
  · unfold readSession
    rw [hopen]
    show readAll bufs.length
      { file := sessionFile f0 bufs, nimages := bufs.length, read_pos := 16,
        write_pos := 16, total_size := (records bufs).length,
        write_count := 0 } = Except.ok bufs
    exact readAll_spec bufs (sessionFile f0 bufs)
      ([84, 67, 65, 77] ++ u32LE bufs.length ++ u64LE (records bufs).length)
      (END_MARKER ++ f0.drop ((records bufs).length + 24))
      _
      (fun b hbm => ⟨hne b hbm, hlen b hbm⟩)
      hco
      (by simp [u32LE, u64LE])
      (by simp [u32LE, u64LE]; omega)
  · unfold readCount
    rw [hopen]
    rfl

/-- C1 witness: a concrete two-image session round-trips. -/
theorem c1_container_roundtrip_witness :
    readSession (sessionFile [] [[1, 2, 3], [4]]) 2 =
      Except.ok [[1, 2, 3], [4]] ∧
    readCount (sessionFile [] [[1, 2, 3], [4]]) = Except.ok 2 :=
  c1_container_roundtrip [] [[1, 2, 3], [4]] (by decide) (by decide)
    (by decide) (by decide)

/-- C1 counterexample: a session consisting of one zero-length buffer is
written without error, but reading it back fails (the reader treats a
zero-size record as end-of-data), so the round-trip claim is false for
sequences containing an empty buffer. -/
theorem c1_counterexample :
    readSession (sessionFile [] [[]]) 1 =
      Except.error "Failed to get image size at Read" ∧
    readSession (sessionFile [] [[]]) 1 ≠ Except.ok [[]] := by
  constructor
  · rfl
  · intro h
    rw [show readSession (sessionFile [] [[]]) 1 =
        Except.error "Failed to get image size at Read" from rfl] at h
    exact Except.noConfusion h

/-! ### C2 -/

/-- C2 counterexample: a finalized session holding a single 1-byte image
stores 9 (payload plus the 8-byte record header) in the header's cumulative
size field, not 1 (the payload bytes alone), so the "image data only" claim
is false. -/
theorem c2_counterexample :
    storedTotalSize (sessionFile [] [[5]]) = 9 ∧ (9 : Nat) ≠ 1 := by
  constructor
  · rfl
  · decide

/-- C2 (amended): the 8-byte little-endian cumulative-size field at bytes
8..16 of a finalized container equals the sum over the written images of
payload length plus the 8-byte record header (the 16-byte file header and
the END marker are excluded). -/
theorem c2_size_field (f0 : List Nat) (bufs : List (List Nat))
    (hsize : (records bufs).length < 18446744073709551616) :
    storedTotalSize (sessionFile f0 bufs) =
      (bufs.map (fun b => b.length + 8)).sum := by
  rw [sessionFile_eq, storedTotalSize_header, Nat.mod_eq_of_lt hsize,
      records_length]

/-- C2 witness: concrete session of payload sizes 2 and 1 stores 2+8+1+8. -/
theorem c2_size_field_witness :
    storedTotalSize (sessionFile [] [[1, 2], [3]]) =
      ([[1, 2], [3]].map (fun b => b.length + 8)).sum :=
  c2_size_field [] [[1, 2], [3]] (by decide)

/-! ### C3 -/

/-- C3: a file whose first 4 bytes are not the "TCAM" magic tag fails to
open in Read mode with the invalid-header error, while opening it in Append
mode succeeds, rewrites the header, resets count and size to 0, and produces
exactly the state a fresh Write-mode open would produce. -/
theorem c3_corrupt_header (f : List Nat) (h : magicOk f = false) :
    ImageFiles.new f OpenMode.Read = Except.error "Invalid file header" ∧
    ImageFiles.new f OpenMode.Append = ImageFiles.new f OpenMode.Write ∧
    ImageFiles.new f OpenMode.Append = Except.ok {
      file := writeBytes f 0 FILE_HEADER
      nimages := 0
      read_pos := 16
      write_pos := 16
      total_size := 0
      write_count := 0 } := by
  have hm : ¬ (magicOk f = true) := by simp [h]
  refine ⟨?_, ?_, ?_⟩
  · unfold ImageFiles.new
    rw [if_neg (by decide : ¬ (OpenMode.Read = OpenMode.Write)), if_neg hm,
        if_pos rfl]
  · unfold ImageFiles.new
    rw [if_neg (by decide : ¬ (OpenMode.Append = OpenMode.Write)), if_neg hm,
        if_neg (by decide : ¬ (OpenMode.Append = OpenMode.Read)), if_pos rfl]
  · unfold ImageFiles.new
    rw [if_neg (by decide : ¬ (OpenMode.Append = OpenMode.Write)), if_neg hm,
        if_neg (by decide : ¬ (OpenMode.Append = OpenMode.Read))]

/-- C3 witness: the empty file (all-zero header) is corrupt. -/
theorem c3_corrupt_header_witness :
    ImageFiles.new [] OpenMode.Read = Except.error "Invalid file header" ∧
    ImageFiles.new [] OpenMode.Append = ImageFiles.new [] OpenMode.Write ∧
    ImageFiles.new [] OpenMode.Append = Except.ok {
      file := writeBytes [] 0 FILE_HEADER
      nimages := 0
      read_pos := 16
      write_pos := 16
      total_size := 0
      write_count := 0 } :=
  c3_corrupt_header [] rfl

/-! ### C9 -/

theorem writeBytes_append_left (A rest d : List Nat) :
    writeBytes (A ++ rest) A.length d = A ++ (d ++ rest.drop d.length) := by
  unfold writeBytes
  have h0 : A.length - (A ++ rest).length = 0 := by simp
  rw [h0]
  simp only [List.replicate_zero, List.append_nil]
  rw [List.take_left, List.drop_append d.length, List.append_assoc]

theorem finalize_header_slices (g c s : List Nat) (hc : c.length = 4)
    (hs : s.length = 8) :
    readBytesFrom (writeBytes (writeBytes g 4 c) 8 s) 4 4 = c ∧
    readBytesFrom (writeBytes (writeBytes g 4 c) 8 s) 8 8 = s := by
  have hP := length_take_pad g 4
  have hf2 : writeBytes g 4 c =
      ((g ++ List.replicate (4 - g.length) 0).take 4 ++ c) ++
        g.drop (4 + c.length) := by
    unfold writeBytes
    rw [List.append_assoc]
  have hf2len : ((g ++ List.replicate (4 - g.length) 0).take 4 ++ c).length =
      8 := by
    simp [hP, hc]
  have hf3 : writeBytes (writeBytes g 4 c) 8 s =
      ((g ++ List.replicate (4 - g.length) 0).take 4 ++ c) ++
        (s ++ (g.drop (4 + c.length)).drop s.length) := by
    conv_lhs => rw [hf2, show (8 : Nat) =
      (((g ++ List.replicate (4 - g.length) 0).take 4 ++ c)).length from
        hf2len.symm]
    exact writeBytes_append_left _ _ _
  constructor
  · rw [hf3]
    unfold readBytesFrom
    rw [List.append_assoc, List.drop_left' hP]
    rw [List.take_append_of_le_length (by omega)]
    exact List.take_of_length_le (by omega)
  · rw [hf3]
    unfold readBytesFrom
    rw [List.drop_left' hf2len]
    rw [List.take_append_of_le_length (by omega)]
    exact List.take_of_length_le (by omega)

/-- C9: idempotent finalize.  A second `write_image_end` writes the same
image-count and total-size values into the header as the first: the 4-byte
count field (bytes 4..8) and 8-byte size field (bytes 8..16) after the second
call equal those after the first call, both holding the little-endian
encodings of the session's `nimages` and `total_size`. -/
theorem c9_idempotent_finalize (st : ImageFiles) :
    readBytesFrom st.write_image_end.write_image_end.file 4 4 =
      readBytesFrom st.write_image_end.file 4 4 ∧
    readBytesFrom st.write_image_end.write_image_end.file 8 8 =
      readBytesFrom st.write_image_end.file 8 8 ∧
    readBytesFrom st.write_image_end.file 4 4 = u32LE st.nimages ∧
    readBytesFrom st.write_image_end.file 8 8 = u64LE st.total_size := by
  have h1 := finalize_header_slices
    (writeBytes st.file st.write_pos [69, 78, 68, 0, 0, 0, 0, 0])
    (u32LE st.nimages) (u64LE st.total_size)
    (by simp [u32LE]) (by simp [u64LE])
  have h2 := finalize_header_slices
    (writeBytes st.write_image_end.file st.write_image_end.write_pos
      [69, 78, 68, 0, 0, 0, 0, 0])
    (u32LE st.write_image_end.nimages) (u64LE st.write_image_end.total_size)
    (by simp [u32LE]) (by simp [u64LE])
  have e1 : readBytesFrom st.write_image_end.file 4 4 = u32LE st.nimages := h1.1
  have e2 : readBytesFrom st.write_image_end.file 8 8 = u64LE st.total_size :=
    h1.2
  have e3 : readBytesFrom st.write_image_end.write_image_end.file 4 4 =
      u32LE st.nimages := h2.1
  have e4 : readBytesFrom st.write_image_end.write_image_end.file 8 8 =
      u64LE st.total_size := h2.2
  exact ⟨e3.trans e1.symm, e4.trans e2.symm, e1, e2⟩

/-! ## Write-Behind Queue (`WriteThread` in `src/imagefiles.rs`) -/

/-- The producer-side state of `WriteThread` together with the queue fields
of the shared `WriteImageQueue` that `push_data` touches (`buffer`,
`queue_len`); the mutex is implicit in the sequential model. -/
structure WriteThreadState where
  direct_write_mode : Bool
  image_file : Option ImageFiles
  buffer_is_full : Bool
  drop_frames : Nat
  buffer : List (List Nat)
  queue_len : Nat
deriving Repr, DecidableEq

/-- Embeds `WriteThread::push_data(data)`: direct mode writes through; queued mode
drops the frame (counting it) when it would push `queue_len` past
`MAX_QUEUE_SIZE`, else clears the full-flag on an empty frame and appends. -/
def WriteThreadState.push_data (st : WriteThreadState) (data : List Nat) :
    WriteThreadState :=
  if st.direct_write_mode then
    { st with image_file := st.image_file.map (fun img => img.write_image data) }
  else if MAX_QUEUE_SIZE < st.queue_len + data.length then
    { st with drop_frames := st.drop_frames + 1, buffer_is_full := true }
  else
    { st with
      buffer_is_full :=
        if st.buffer_is_full then
          (if data.length = 0 then false else st.buffer_is_full)
        else st.buffer_is_full
      queue_len := st.queue_len + data.length
      buffer := st.buffer ++ [data] }

/-- A sequence of `push_data` calls. -/
def pushAll (st : WriteThreadState) (ds : List (List Nat)) : WriteThreadState :=
  ds.foldl WriteThreadState.push_data st

/-- The sub-sequence of buffers the queued-mode backpressure policy accepts. -/
def acceptedBuffers (st : WriteThreadState) :
    List (List Nat) → List (List Nat)
  | [] => []
  | d :: ds =>
    if MAX_QUEUE_SIZE < st.queue_len + d.length then
      acceptedBuffers (st.push_data d) ds
    else
      d :: acceptedBuffers (st.push_data d) ds

/-- The number of buffers the queued-mode backpressure policy rejects. -/
def rejectedCount (st : WriteThreadState) : List (List Nat) → Nat
  | [] => 0
  | d :: ds =>
    (if MAX_QUEUE_SIZE < st.queue_len + d.length then 1 else 0) +
      rejectedCount (st.push_data d) ds

theorem push_data_direct_eq (st : WriteThreadState) (d : List Nat)
    (h : st.direct_write_mode = false) :
    st.push_data d =
      if MAX_QUEUE_SIZE < st.queue_len + d.length then
        { st with drop_frames := st.drop_frames + 1, buffer_is_full := true }
      else
        { st with
          buffer_is_full :=
            if st.buffer_is_full then
              (if d.length = 0 then false else st.buffer_is_full)
            else st.buffer_is_full
          queue_len := st.queue_len + d.length
          buffer := st.buffer ++ [d] } := by
  unfold WriteThreadState.push_data
  rw [if_neg (by simp [h])]

theorem pushAll_spec (ds : List (List Nat)) : ∀ st : WriteThreadState,
    st.direct_write_mode = false → st.queue_len ≤ MAX_QUEUE_SIZE →
    (pushAll st ds).queue_len ≤ MAX_QUEUE_SIZE ∧
    (pushAll st ds).buffer = st.buffer ++ acceptedBuffers st ds ∧
    (pushAll st ds).drop_frames = st.drop_frames + rejectedCount st ds := by
  induction ds with
  | nil =>
    intro st h1 h2
    exact ⟨h2, by simp [pushAll, acceptedBuffers], by simp [pushAll, rejectedCount]⟩
  | cons d ds ih =>
    intro st h1 h2
    have hstep := push_data_direct_eq st d h1
    by_cases hcond : MAX_QUEUE_SIZE < st.queue_len + d.length
    · rw [if_pos hcond] at hstep
      have hd1 : (st.push_data d).direct_write_mode = false := by
        rw [hstep]
        exact h1
      have hq1 : (st.push_data d).queue_len = st.queue_len := by rw [hstep]
      have hb1 : (st.push_data d).buffer = st.buffer := by rw [hstep]
      have hf1 : (st.push_data d).drop_frames = st.drop_frames + 1 := by
        rw [hstep]
      have hrec := ih (st.push_data d) hd1 (by rw [hq1]; exact h2)
      refine ⟨hrec.1, ?_, ?_⟩
      · show (pushAll (st.push_data d) ds).buffer = _
        rw [hrec.2.1, hb1, acceptedBuffers, if_pos hcond]
      · show (pushAll (st.push_data d) ds).drop_frames = _
        rw [hrec.2.2, hf1, rejectedCount, if_pos hcond]
        omega
    · rw [if_neg hcond] at hstep
      have hd1 : (st.push_data d).direct_write_mode = false := by
        rw [hstep]
        exact h1
      have hq1 : (st.push_data d).queue_len = st.queue_len + d.length := by
        rw [hstep]
      have hb1 : (st.push_data d).buffer = st.buffer ++ [d] := by rw [hstep]
      have hf1 : (st.push_data d).drop_frames = st.drop_frames := by rw [hstep]
      have hrec := ih (st.push_data d) hd1
        (by rw [hq1]; exact Nat.not_lt.1 hcond)
      refine ⟨hrec.1, ?_, ?_⟩
      · show (pushAll (st.push_data d) ds).buffer = _
        rw [hrec.2.1, hb1, acceptedBuffers, if_neg hcond]
        simp
      · show (pushAll (st.push_data d) ds).drop_frames = _
        rw [hrec.2.2, hf1, rejectedCount, if_neg hcond]
        omega

/-! ### C4 -/

/-- C4: backpressure invariant of the write-behind queue.  In queued mode,
starting from `queue_len ≤ MAX_QUEUE_SIZE`: a single push appends the buffer
and adds its length when it fits, and otherwise leaves the queue and
`queue_len` unchanged while incrementing the drop counter by exactly one;
over any sequence of pushes `queue_len` never exceeds `MAX_QUEUE_SIZE`, the
queue only ever grows by the accepted buffers in order (no eviction), and
the drop counter increases by exactly the number of rejected pushes. -/
theorem c4_backpressure (st : WriteThreadState) (d : List Nat)
    (ds : List (List Nat))
    (hdirect : st.direct_write_mode = false)
    (hq : st.queue_len ≤ MAX_QUEUE_SIZE) :
    ((st.push_data d).buffer =
      if st.queue_len + d.length ≤ MAX_QUEUE_SIZE then st.buffer ++ [d]
      else st.buffer) ∧
    ((st.push_data d).queue_len =
      if st.queue_len + d.length ≤ MAX_QUEUE_SIZE then st.queue_len + d.length
      else st.queue_len) ∧
    ((st.push_data d).drop_frames =
      if st.queue_len + d.length ≤ MAX_QUEUE_SIZE then st.drop_frames
      else st.drop_frames + 1) ∧
    (st.push_data d).queue_len ≤ MAX_QUEUE_SIZE ∧
    (pushAll st ds).queue_len ≤ MAX_QUEUE_SIZE ∧
    (pushAll st ds).buffer = st.buffer ++ acceptedBuffers st ds ∧
    (pushAll st ds).drop_frames = st.drop_frames + rejectedCount st ds := by
  have hstep := push_data_direct_eq st d hdirect
  have hfold := pushAll_spec ds st hdirect hq
  by_cases hcond : MAX_QUEUE_SIZE < st.queue_len + d.length
  · rw [if_pos hcond] at hstep
    rw [hstep]
    have hnot : ¬ (st.queue_len + d.length ≤ MAX_QUEUE_SIZE) := by omega
    refine ⟨by rw [if_neg hnot], by rw [if_neg hnot], by rw [if_neg hnot],
      hq, hfold.1, hfold.2.1, hfold.2.2⟩
  · rw [if_neg hcond] at hstep
    rw [hstep]
    have hle : st.queue_len + d.length ≤ MAX_QUEUE_SIZE := by omega
    refine ⟨by rw [if_pos hle], by rw [if_pos hle], by rw [if_pos hle],
      hle, hfold.1, hfold.2.1, hfold.2.2⟩

/-- C4 witness: at a queue already holding `MAX_QUEUE_SIZE` bytes, a 1-byte
push is rejected (drop counter 0 → 1, queue untouched) while pushing an
empty buffer and then a 1-byte buffer through `pushAll` accepts only the
empty one. -/
theorem c4_backpressure_witness :
    (WriteThreadState.push_data
        ⟨false, none, false, 0, [], MAX_QUEUE_SIZE⟩ [7]).buffer =
      (if MAX_QUEUE_SIZE + 1 ≤ MAX_QUEUE_SIZE then [([7] : List Nat)]
       else []) ∧
    (WriteThreadState.push_data
        ⟨false, none, false, 0, [], MAX_QUEUE_SIZE⟩ [7]).queue_len =
      (if MAX_QUEUE_SIZE + 1 ≤ MAX_QUEUE_SIZE then MAX_QUEUE_SIZE + 1
       else MAX_QUEUE_SIZE) ∧
    (WriteThreadState.push_data
        ⟨false, none, false, 0, [], MAX_QUEUE_SIZE⟩ [7]).drop_frames =
      (if MAX_QUEUE_SIZE + 1 ≤ MAX_QUEUE_SIZE then 0 else 0 + 1) ∧
    (WriteThreadState.push_data
        ⟨false, none, false, 0, [], MAX_QUEUE_SIZE⟩ [7]).queue_len ≤
      MAX_QUEUE_SIZE ∧
    (pushAll ⟨false, none, false, 0, [], MAX_QUEUE_SIZE⟩
        [[], [9]]).queue_len ≤ MAX_QUEUE_SIZE ∧
    (pushAll ⟨false, none, false, 0, [], MAX_QUEUE_SIZE⟩ [[], [9]]).buffer =
      [] ++ acceptedBuffers ⟨false, none, false, 0, [], MAX_QUEUE_SIZE⟩
        [[], [9]] ∧
    (pushAll ⟨false, none, false, 0, [], MAX_QUEUE_SIZE⟩
        [[], [9]]).drop_frames =
      0 + rejectedCount ⟨false, none, false, 0, [], MAX_QUEUE_SIZE⟩
        [[], [9]] :=
  c4_backpressure ⟨false, none, false, 0, [], MAX_QUEUE_SIZE⟩ [7] [[], [9]]
    rfl (le_refl MAX_QUEUE_SIZE)

/-! ### C10 -/

/-- C10: a zero-length buffer pushed in queued mode is never dropped, even
at `queue_len = MAX_QUEUE_SIZE` exactly, because `queue_len + 0 >
MAX_QUEUE_SIZE` is false: the empty buffer is appended, `queue_len` and the
drop counter are unchanged, and the buffer-full diagnostic flag is cleared. -/
theorem c10_empty_push (st : WriteThreadState)
    (hdirect : st.direct_write_mode = false)
    (hq : st.queue_len ≤ MAX_QUEUE_SIZE) :
    st.push_data [] =
      { st with buffer_is_full := false, buffer := st.buffer ++ [[]] } := by
  rw [push_data_direct_eq st [] hdirect]
  rw [if_neg (by simp; omega)]
  cases hb : st.buffer_is_full <;> simp [hb]

/-- C10 witness: at a full queue with the full-flag set, the empty push is
accepted and clears the flag. -/
theorem c10_empty_push_witness :
    WriteThreadState.push_data
        ⟨false, none, true, 3, [[1]], MAX_QUEUE_SIZE⟩ [] =
      { direct_write_mode := false, image_file := none,
        buffer_is_full := false, drop_frames := 3,
        buffer := [[1], []], queue_len := MAX_QUEUE_SIZE } :=
  c10_empty_push ⟨false, none, true, 3, [[1]], MAX_QUEUE_SIZE⟩ rfl
    (le_refl MAX_QUEUE_SIZE)

/-! ## Capture State Machine (`src/capture.rs`) -/

/-- How one capture-request loop (capture.rs lines 134-184) ended. -/
inductive CaptureEnd where
  /-- exited through `write_thread.stop()` followed by `break` -/
  | stoppedEnd
  /-- the sensor returned `None`: `break` WITHOUT calling `stop()` -/
  | noFrameEnd
  /-- the supplied frame sequence ran out while the loop would continue -/
  | runningEnd
deriving DecidableEq, Repr

/-- The per-frame body of the capture loop: each entry of `events` is the
sensor's answer to one `get_framebuffer()` call paired with the elapsed
whole seconds since the burst started, observed right after that frame.
Returns the number of frames pushed and how the loop ended.  Mirrors
capture.rs lines 134-184: a frame is pushed, then for `capturing_duration >
0` the loop stops once `elapsed >= duration`, for `< 0` it never stops on
its own, and for `== 0` it stops after the single frame; a `None` frame
breaks out without `stop()`. -/
def captureLoop (duration : Int) :
    List (Option (List Nat) × Nat) → Nat × CaptureEnd
  | [] => (0, CaptureEnd.runningEnd)
  | (none, _) :: _ => (0, CaptureEnd.noFrameEnd)
  | (some _, elapsed) :: rest =>
    if 0 < duration then
      if duration ≤ (elapsed : Int) then (1, CaptureEnd.stoppedEnd)
      else
        let r := captureLoop duration rest
        (r.1 + 1, r.2)
    else if duration < 0 then
      let r := captureLoop duration rest
      (r.1 + 1, r.2)
    else (1, CaptureEnd.stoppedEnd)

/-! ### C5 -/

/-- C5: capture duration semantics, re-checked after each frame.
`capturing_duration > 0` stops the loop exactly at the first frame whose
elapsed seconds reach the duration; `< 0` never stops the loop on its own;
`== 0` captures exactly one frame and stops. -/
theorem c5_capture_duration :
    (∀ (d : Int) (events : List (Option (List Nat) × Nat)) (i : Nat),
      0 < d → (∀ e ∈ events, e.1 ≠ none) → i < events.length →
      d ≤ (((events.getD i (none, 0)).2 : Nat) : Int) →
      (∀ j, j < i → (((events.getD j (none, 0)).2 : Nat) : Int) < d) →
      captureLoop d events = (i + 1, CaptureEnd.stoppedEnd)) ∧
    (∀ (d : Int) (events : List (Option (List Nat) × Nat)),
      d < 0 → (∀ e ∈ events, e.1 ≠ none) →
      captureLoop d events = (events.length, CaptureEnd.runningEnd)) ∧
    (∀ (f : List Nat) (t : Nat) (rest : List (Option (List Nat) × Nat)),
      captureLoop 0 ((some f, t) :: rest) = (1, CaptureEnd.stoppedEnd)) := by
  refine ⟨?_, ?_, ?_⟩
  · intro d events
    induction events with
    | nil =>
      intro i _ _ hi _ _
      exact absurd hi (by simp)
    | cons e es ih =>
      intro i hd hframes hi hstop hbefore
      obtain ⟨oe, t⟩ := e
      cases oe with
      | none => exact absurd rfl (hframes (none, t) (List.mem_cons_self _ _))
      | some f =>
        cases i with
        | zero =>
          show captureLoop d ((some f, t) :: es) = (1, CaptureEnd.stoppedEnd)
          rw [captureLoop, if_pos hd, if_pos (by simpa using hstop)]
        | succ j =>
          have ht : ((t : Nat) : Int) < d := by simpa using hbefore 0 (by omega)
          have hrec := ih j hd
            (fun e he => hframes e (List.mem_cons_of_mem _ he))
            (by simpa using hi)
            (by simpa using hstop)
            (fun k hk => by simpa using hbefore (k + 1) (by omega))
          show captureLoop d ((some f, t) :: es) = (j + 1 + 1, CaptureEnd.stoppedEnd)
          rw [captureLoop, if_pos hd, if_neg (by omega)]
          simp [hrec]
  · intro d events hd hframes
    induction events with
    | nil => rfl
    | cons e es ih =>
      obtain ⟨oe, t⟩ := e
      cases oe with
      | none => exact absurd rfl (hframes (none, t) (List.mem_cons_self _ _))
      | some f =>
        have hrec := ih (fun e he => hframes e (List.mem_cons_of_mem _ he))
        show captureLoop d ((some f, t) :: es) = (es.length + 1, CaptureEnd.runningEnd)
        rw [captureLoop, if_neg (by omega), if_pos hd]
        simp [hrec]
  · intro f t rest
    rw [captureLoop, if_neg (by omega), if_neg (by omega)]

/-- C5 witness: with duration 2 s and elapsed seconds 0, 1, 3 after frames
one to three, the loop stops after the third frame; with duration -1 it
consumes all supplied frames without stopping; with duration 0 it stops
after one frame. -/
theorem c5_capture_duration_witness :
    captureLoop 2 [(some [], 0), (some [], 1), (some [], 3)] =
      (3, CaptureEnd.stoppedEnd) ∧
    captureLoop (-1) [(some [], 0), (some [], 1), (some [], 3)] =
      (3, CaptureEnd.runningEnd) ∧
    captureLoop 0 [(some [], 0), (some [], 1)] =
      (1, CaptureEnd.stoppedEnd) :=
  ⟨c5_capture_duration.1 2 [(some [], 0), (some [], 1), (some [], 3)] 2
      (by decide) (by decide) (by decide) (by decide)
      (by decide),
   c5_capture_duration.2.1 (-1) [(some [], 0), (some [], 1), (some [], 3)]
      (by decide) (by decide),
   c5_capture_duration.2.2 [] 0 [(some [], 1)]⟩

/-! ## Background writer thread (`WriteThread::start`, queued mode) -/

inductive WriteThreadStatus where
  | NotStarted
  | Running
  | Stopped
deriving DecidableEq, Repr

/-- The shared `WriteImageQueue` state. -/
structure WriteImageQueue where
  buffer : List (List Nat)
  data_size : Nat
  thread_status : WriteThreadStatus
  write_done : Bool
  images : Nat
  queue_len : Nat
deriving Repr, DecidableEq

/-- One iteration of the writer-thread loop (imagefiles.rs lines 95-129):
mark Running; if the queue holds data, pop the oldest buffer and write it;
else if `write_done` is set, leave the loop, finalize with
`write_image_end`, publish the image count and become Stopped (the Bool
marks loop exit); else idle (sleep). -/
def writerStep (q : WriteImageQueue) (img : ImageFiles) :
    WriteImageQueue × ImageFiles × Bool :=
  let q1 := { q with thread_status := WriteThreadStatus.Running }
  match q1.buffer with
  | data :: rest =>
    ({ q1 with
        buffer := rest
        data_size := q1.data_size + data.length
        queue_len := q1.queue_len - data.length },
      img.write_image data, false)
  | [] =>
    if q1.write_done then
      ({ q1 with
          images := (img.write_image_end).get_nof_images
          thread_status := WriteThreadStatus.Stopped },
        img.write_image_end, true)
    else (q1, img, false)

/-- The writer thread run for up to `n` poll iterations (it exits as soon as
a step reports loop exit). -/
def writerRun : Nat → WriteImageQueue → ImageFiles → WriteImageQueue × ImageFiles
  | 0, q, img => (q, img)
  | n + 1, q, img =>
    match writerStep q img with
    | (q1, i1, true) => (q1, i1)
    | (q1, i1, false) => writerRun n q1 i1

/-! ### C6 -/

/-- C6 (code evidence): when the sensor returns no frame, the capture loop
breaks WITHOUT calling `write_thread.stop()` (outcome `noFrameEnd`, first
conjunct), so `write_done` stays false; and a writer thread whose queue is
drained and whose `write_done` flag is false never finalizes the container
and never reaches `Stopped`, however many poll iterations run (second
conjunct) — hence `wait_thread`, which spins until it observes `Stopped`,
never terminates, contradicting the claim that the container is still
finalized and the wait terminates. -/
theorem c6_no_frame_never_finalizes :
    (∀ (d : Int) (t : Nat) (evs : List (Option (List Nat) × Nat)),
      captureLoop d ((none, t) :: evs) = (0, CaptureEnd.noFrameEnd)) ∧
    (∀ (n : Nat) (q : WriteImageQueue) (img : ImageFiles),
      q.buffer = [] → q.write_done = false →
      q.thread_status ≠ WriteThreadStatus.Stopped →
      (writerRun n q img).1.thread_status ≠ WriteThreadStatus.Stopped ∧
      (writerRun n q img).2 = img) := by
  constructor
  · intro d t evs
    rfl
  · intro n
    induction n with
    | zero =>
      intro q img hbuf hdone hstat
      exact ⟨hstat, rfl⟩
    | succ n ih =>
      intro q img hbuf hdone hstat
      have hstep : writerStep q img =
          ({ q with thread_status := WriteThreadStatus.Running }, img, false) := by
        unfold writerStep
        simp [hbuf, hdone]
      show (writerRun (n + 1) q img).1.thread_status ≠ _ ∧
        (writerRun (n + 1) q img).2 = img
      rw [writerRun, hstep]
      exact ih { q with thread_status := WriteThreadStatus.Running }
        img hbuf hdone (by simp)

/-- C6 witness: a single `None` frame ends the loop without stop, and five
writer polls on an empty, non-done queue leave the container untouched and
the thread unstopped. -/
theorem c6_no_frame_never_finalizes_witness :
    captureLoop 1 [(none, 0)] = (0, CaptureEnd.noFrameEnd) ∧
    (writerRun 5 ⟨[], 0, WriteThreadStatus.NotStarted, false, 0, 0⟩
        ⟨[], 0, 16, 16, 0, 0⟩).1.thread_status ≠ WriteThreadStatus.Stopped ∧
    (writerRun 5 ⟨[], 0, WriteThreadStatus.NotStarted, false, 0, 0⟩
        ⟨[], 0, 16, 16, 0, 0⟩).2 = ⟨[], 0, 16, 16, 0, 0⟩ :=
  ⟨c6_no_frame_never_finalizes.1 1 0 [],
   (c6_no_frame_never_finalizes.2 5
      ⟨[], 0, WriteThreadStatus.NotStarted, false, 0, 0⟩
      ⟨[], 0, 16, 16, 0, 0⟩ rfl rfl (by decide)).1,
   (c6_no_frame_never_finalizes.2 5
      ⟨[], 0, WriteThreadStatus.NotStarted, false, 0, 0⟩
      ⟨[], 0, 16, 16, 0, 0⟩ rfl rfl (by decide)).2⟩

/-! ## Wake-Time Scheduler (`get_next_wake_time` in `src/main.rs`) -/

/-- The `duration > 0` branch of `get_next_wake_time` (main.rs lines
696-708): `next = previous + duration`; when a window is configured
(`capture_start_time < capture_end_time`), a `next` before the start is
clamped to the start and a `next` strictly past the end is terminal
(`none`).  Instants are epoch seconds. -/
def get_next_wake_time_periodic (next_capture_time duration
    capture_start_time capture_end_time : Nat) : Option Nat :=
  let next := next_capture_time + duration
  if capture_start_time < capture_end_time then
    if next < capture_start_time then some capture_start_time
    else if capture_end_time < next then none
    else some next
  else some next

/-! ### C7 -/

/-- C7 (amended): periodic scheduler.  For previous instant `prev` and
duration `d > 0` the next wake time is `prev + d`; with a window
`[start, end)` configured (`start < end`), a next falling before `start` is
clamped to `start`, a next falling STRICTLY AFTER `end` is terminal
(`none`), and a next equal to `end` is returned as `Some end` (not
terminal); with no window configured the result is always
`Some (prev + d)`. -/
theorem c7_periodic_schedule (prev d cst cet : Nat) (_hd : 0 < d) :
    (¬ cst < cet →
      get_next_wake_time_periodic prev d cst cet = some (prev + d)) ∧
    (cst < cet → prev + d < cst →
      get_next_wake_time_periodic prev d cst cet = some cst) ∧
    (cst < cet → cst ≤ prev + d → prev + d ≤ cet →
      get_next_wake_time_periodic prev d cst cet = some (prev + d)) ∧
    (cst < cet → cet < prev + d →
      get_next_wake_time_periodic prev d cst cet = none) := by
  unfold get_next_wake_time_periodic
  refine ⟨?_, ?_, ?_, ?_⟩
  · intro hw
    rw [if_neg hw]
  · intro hw hlt
    rw [if_pos hw, if_pos hlt]
  · intro hw h1 h2
    rw [if_pos hw, if_neg (by omega), if_neg (by omega)]
  · intro hw h1
    rw [if_pos hw, if_neg (by omega), if_pos h1]

/-- C7 witness: the spec's own example, `previous = 100`, `duration = 50`,
window `[80, 120)`: `150 > 120` is terminal. -/
theorem c7_periodic_schedule_witness :
    get_next_wake_time_periodic 100 50 80 120 = none :=
  (c7_periodic_schedule 100 50 80 120 (by decide)).2.2.2 (by decide)
    (by decide)

/-- C7 counterexample: with `previous = 100`, `duration = 20`, window
`[80, 120)`, the next wake time `120` falls exactly AT the window end; the
claim says this is terminal (`None`), but the code's strict `>` comparison
returns `Some 120`. -/
theorem c7_counterexample :
    get_next_wake_time_periodic 100 20 80 120 = some 120 ∧
    get_next_wake_time_periodic 100 20 80 120 ≠ none := by
  constructor
  · rfl
  · intro h
    rw [show get_next_wake_time_periodic 100 20 80 120 = some 120 from rfl]
      at h
    exact Option.noConfusion h

/-! ### Calendar arithmetic for the leap-time branch -/

/-- The `LeapTime` struct of `src/server.rs`; negative fields mean
"unspecified". -/
structure LeapTime where
  year : Int
  month : Int
  day : Int
  hour : Int
  minute : Int
  second : Int
deriving Repr, DecidableEq

/-- A chrono `NaiveDateTime`: a timezone-less calendar date and time. -/
structure NaiveDT where
  year : Int
  month : Nat
  day : Nat
  hour : Nat
  minute : Nat
  second : Nat
deriving Repr, DecidableEq

/-- chrono's `NaiveDateTime` ordering: lexicographic on the calendar
fields. -/
def dtBefore (a b : NaiveDT) : Bool :=
  if a.year < b.year then true
  else if b.year < a.year then false
  else if a.month < b.month then true
  else if b.month < a.month then false
  else if a.day < b.day then true
  else if b.day < a.day then false
  else if a.hour < b.hour then true
  else if b.hour < a.hour then false
  else if a.minute < b.minute then true
  else if b.minute < a.minute then false
  else decide (a.second < b.second)

def isLeapYear (y : Int) : Bool :=
  decide (y % 4 = 0 ∧ (y % 100 ≠ 0 ∨ y % 400 = 0))

def daysInMonth (y : Int) (m : Nat) : Nat :=
  if m = 2 then (if isLeapYear y then 29 else 28)
  else if m = 4 ∨ m = 6 ∨ m = 9 ∨ m = 11 then 30
  else 31

/-- Computes `date + Duration::days(1)` on a calendar date. -/
def nextDate (y : Int) (m d : Nat) : Int × Nat × Nat :=
  if d < daysInMonth y m then (y, m, d + 1)
  else if m = 12 then (y + 1, 1, 1)
  else (y, m + 1, 1)

/-- Days since 1970-01-01 of a civil date (Hinnant's `days_from_civil`;
all intermediate divisions act on non-negative values). -/
def daysFromCivil (y : Int) (m d : Nat) : Int :=
  let y2 : Int := if m ≤ 2 then y - 1 else y
  let era : Int := (if 0 ≤ y2 then y2 else y2 - 399) / 400
  let yoe : Int := y2 - era * 400
  let doy : Int := (153 * (if 2 < m then (m : Int) - 3 else (m : Int) + 9) + 2) / 5
    + (d : Int) - 1
  let doe : Int := yoe * 365 + yoe / 4 - yoe / 100 + doy
  era * 146097 + doe - 719468

/-- The UTC epoch seconds of a local calendar instant interpreted in a fixed
offset of `offsetSeconds` (chrono `DateTime<FixedOffset> → SystemTime`). -/
def NaiveDT.toEpoch (dt : NaiveDT) (offsetSeconds : Int) : Int :=
  daysFromCivil dt.year dt.month dt.day * 86400 +
    (dt.hour : Int) * 3600 + (dt.minute : Int) * 60 + (dt.second : Int) -
    offsetSeconds

/-- The local calendar instant "today at `h:m:00`" (same date as `now`). -/
def todayAt (now : NaiveDT) (h m : Nat) : NaiveDT :=
  { year := now.year, month := now.month, day := now.day,
    hour := h, minute := m, second := 0 }

/-- The local calendar instant "tomorrow at `h:m:00`". -/
def tomorrowAt (now : NaiveDT) (h m : Nat) : NaiveDT :=
  { year := (nextDate now.year now.month now.day).1
    month := (nextDate now.year now.month now.day).2.1
    day := (nextDate now.year now.month now.day).2.2
    hour := h
    minute := m
    second := 0 }

/-- The `duration == 0`, `lt.day <= 0` (day-unspecified) branch of
`get_next_wake_time` (main.rs lines 759-812), including the final window
clamp.  `now` is the current local wall-clock time in the configured fixed
offset (`Local::now().with_timezone(&offset)`); `next_capture_time`,
`capture_start_time` and `capture_end_time` are epoch seconds.  If the hour
field is non-negative it is a specific time today (tomorrow when already
passed), with a negative minute clamped to 0; otherwise a STRICTLY POSITIVE
minute selects the next occurrence of that minute-of-hour (hour 23 rolling
to tomorrow); otherwise `next_capture_time` is left unchanged. -/
def get_next_wake_time_leap (lt : LeapTime) (timezone : Int)
    (next_capture_time : Int) (now : NaiveDT)
    (capture_start_time capture_end_time : Int) : Option Int :=
  let offset := timezone * 60 * 60
  let next1 : Int :=
    if 0 ≤ lt.hour then
      let m : Int := if lt.minute < 0 then 0 else lt.minute
      let leap := todayAt now lt.hour.toNat m.toNat
      if dtBefore now leap then leap.toEpoch offset
      else (tomorrowAt now lt.hour.toNat m.toNat).toEpoch offset
    else
      if 0 < lt.minute then
        let leap := todayAt now now.hour lt.minute.toNat
        if dtBefore now leap then leap.toEpoch offset
        else
          if now.hour = 23 then
            (tomorrowAt now 0 lt.minute.toNat).toEpoch offset
          else
            (todayAt now (now.hour + 1) lt.minute.toNat).toEpoch offset
      else next_capture_time
  if next1 < capture_start_time then some capture_start_time
  else if capture_end_time < next1 ∧ now.toEpoch offset < capture_end_time
    then none
  else some next1

/-! ### C8 -/

/-- C8 (amended): leap-time scheduler with day unspecified, window clamp
not engaged.  With the hour field specified (`0 ≤ hour`, minute taken as
given when `0 ≤ minute`), the next wake time is today at that hour and
minute in the configured fixed UTC offset when that instant is still in the
future, otherwise the same time tomorrow.  With hour unspecified, only a
STRICTLY POSITIVE minute field selects the next occurrence of that
minute-of-hour — this hour if still in the future, else the next hour, with
hour 23 rolling over to hour 0 of the next day; a minute field of 0 with
hour unspecified is treated as unspecified and leaves the next wake time
unchanged. -/
theorem c8_leap_time_no_day (lt : LeapTime) (timezone : Int)
    (next_capture_time : Int) (now : NaiveDT)
    (capture_start_time capture_end_time : Int) :
    ((0 ≤ lt.hour) → (0 ≤ lt.minute) →
      dtBefore now (todayAt now lt.hour.toNat lt.minute.toNat) = true →
      ¬ ((todayAt now lt.hour.toNat lt.minute.toNat).toEpoch
          (timezone * 60 * 60) < capture_start_time) →
      ¬ (capture_end_time < (todayAt now lt.hour.toNat
            lt.minute.toNat).toEpoch (timezone * 60 * 60) ∧
          now.toEpoch (timezone * 60 * 60) < capture_end_time) →
      get_next_wake_time_leap lt timezone next_capture_time now
          capture_start_time capture_end_time =
        some ((todayAt now lt.hour.toNat lt.minute.toNat).toEpoch
          (timezone * 60 * 60))) ∧
    ((0 ≤ lt.hour) → (0 ≤ lt.minute) →
      dtBefore now (todayAt now lt.hour.toNat lt.minute.toNat) = false →
      ¬ ((tomorrowAt now lt.hour.toNat lt.minute.toNat).toEpoch
          (timezone * 60 * 60) < capture_start_time) →
      ¬ (capture_end_time < (tomorrowAt now lt.hour.toNat
            lt.minute.toNat).toEpoch (timezone * 60 * 60) ∧
          now.toEpoch (timezone * 60 * 60) < capture_end_time) →
      get_next_wake_time_leap lt timezone next_capture_time now
          capture_start_time capture_end_time =
        some ((tomorrowAt now lt.hour.toNat lt.minute.toNat).toEpoch
          (timezone * 60 * 60))) ∧
    ((lt.hour < 0) → (0 < lt.minute) →
      dtBefore now (todayAt now now.hour lt.minute.toNat) = true →
      ¬ ((todayAt now now.hour lt.minute.toNat).toEpoch
          (timezone * 60 * 60) < capture_start_time) →
      ¬ (capture_end_time < (todayAt now now.hour
            lt.minute.toNat).toEpoch (timezone * 60 * 60) ∧
          now.toEpoch (timezone * 60 * 60) < capture_end_time) →
      get_next_wake_time_leap lt timezone next_capture_time now
          capture_start_time capture_end_time =
        some ((todayAt now now.hour lt.minute.toNat).toEpoch
          (timezone * 60 * 60))) ∧
    ((lt.hour < 0) → (0 < lt.minute) →
      dtBefore now (todayAt now now.hour lt.minute.toNat) = false →
      ¬ (now.hour = 23) →
      ¬ ((todayAt now (now.hour + 1) lt.minute.toNat).toEpoch
          (timezone * 60 * 60) < capture_start_time) →
      ¬ (capture_end_time < (todayAt now (now.hour + 1)
            lt.minute.toNat).toEpoch (timezone * 60 * 60) ∧
          now.toEpoch (timezone * 60 * 60) < capture_end_time) →
      get_next_wake_time_leap lt timezone next_capture_time now
          capture_start_time capture_end_time =
        some ((todayAt now (now.hour + 1) lt.minute.toNat).toEpoch
          (timezone * 60 * 60))) ∧
    ((lt.hour < 0) → (0 < lt.minute) →
      dtBefore now (todayAt now now.hour lt.minute.toNat) = false →
      now.hour = 23 →
      ¬ ((tomorrowAt now 0 lt.minute.toNat).toEpoch
          (timezone * 60 * 60) < capture_start_time) →
      ¬ (capture_end_time < (tomorrowAt now 0
            lt.minute.toNat).toEpoch (timezone * 60 * 60) ∧
          now.toEpoch (timezone * 60 * 60) < capture_end_time) →
      get_next_wake_time_leap lt timezone next_capture_time now
          capture_start_time capture_end_time =
        some ((tomorrowAt now 0 lt.minute.toNat).toEpoch
          (timezone * 60 * 60))) ∧
    ((lt.hour < 0) → (lt.minute ≤ 0) →
      ¬ (next_capture_time < capture_start_time) →
      ¬ (capture_end_time < next_capture_time ∧
          now.toEpoch (timezone * 60 * 60) < capture_end_time) →
      get_next_wake_time_leap lt timezone next_capture_time now
          capture_start_time capture_end_time = some next_capture_time) := by
  refine ⟨?_, ?_, ?_, ?_, ?_, ?_⟩
  · intro hh hm hfut hc1 hc2
    simp only [get_next_wake_time_leap]
    rw [if_pos hh, if_neg (show ¬ lt.minute < 0 by omega), if_pos hfut,
        if_neg hc1, if_neg hc2]
  · intro hh hm hfut hc1 hc2
    have hfut' : ¬ (dtBefore now
        (todayAt now lt.hour.toNat lt.minute.toNat) = true) := by
      rw [hfut]
      exact Bool.false_ne_true
    simp only [get_next_wake_time_leap]
    rw [if_pos hh, if_neg (show ¬ lt.minute < 0 by omega), if_neg hfut',
        if_neg hc1, if_neg hc2]
  · intro hh hm hfut hc1 hc2
    simp only [get_next_wake_time_leap]
    rw [if_neg (show ¬ 0 ≤ lt.hour by omega), if_pos hm, if_pos hfut,
        if_neg hc1, if_neg hc2]
  · intro hh hm hfut h23 hc1 hc2
    have hfut' : ¬ (dtBefore now
        (todayAt now now.hour lt.minute.toNat) = true) := by
      rw [hfut]
      exact Bool.false_ne_true
    simp only [get_next_wake_time_leap]
    rw [if_neg (show ¬ 0 ≤ lt.hour by omega), if_pos hm, if_neg hfut',
        if_neg h23, if_neg hc1, if_neg hc2]
  · intro hh hm hfut h23 hc1 hc2
    have hfut' : ¬ (dtBefore now
        (todayAt now now.hour lt.minute.toNat) = true) := by
      rw [hfut]
      exact Bool.false_ne_true
    simp only [get_next_wake_time_leap]
    rw [if_neg (show ¬ 0 ≤ lt.hour by omega), if_pos hm, if_neg hfut',
        if_pos h23, if_neg hc1, if_neg hc2]
  · intro hh hm hc1 hc2
    simp only [get_next_wake_time_leap]
    rw [if_neg (show ¬ 0 ≤ lt.hour by omega),
        if_neg (show ¬ 0 < lt.minute by omega), if_neg hc1, if_neg hc2]

/-- C8 witness: the spec's example.  now = 2024-03-10 14:05 UTC+0 with
leap-time day unspecified, hour 9, minute 0: today's 9:00 already passed,
so the next capture is tomorrow, 2024-03-11 09:00 UTC+0 (epoch
1710147600). -/
theorem c8_leap_time_no_day_witness :
    get_next_wake_time_leap ⟨-1, -1, -1, 9, 0, 0⟩ 0 0
        ⟨2024, 3, 10, 14, 5, 0⟩ 0 0 =
      some ((tomorrowAt ⟨2024, 3, 10, 14, 5, 0⟩ 9 0).toEpoch (0 * 60 * 60)) ∧
    (tomorrowAt ⟨2024, 3, 10, 14, 5, 0⟩ 9 0).toEpoch (0 * 60 * 60) =
      1710147600 :=
  ⟨(c8_leap_time_no_day ⟨-1, -1, -1, 9, 0, 0⟩ 0 0 ⟨2024, 3, 10, 14, 5, 0⟩
      0 0).2.1 (by decide) (by decide) (by decide) (by decide) (by decide),
   by decide⟩

/-- C8 counterexample: with day and hour unspecified and minute = 0 — a
legitimately specified minute value — the claim demands the next occurrence
of minute 0 (15:00 for now = 2024-03-10 14:05), but the code's `lt.minute >
0` guard skips the computation entirely and returns the incoming
`next_capture_time` (here 42) unchanged. -/
theorem c8_counterexample :
    get_next_wake_time_leap ⟨-1, -1, -1, -1, 0, 0⟩ 0 42
        ⟨2024, 3, 10, 14, 5, 0⟩ 0 0 = some 42 ∧
    get_next_wake_time_leap ⟨-1, -1, -1, -1, 0, 0⟩ 0 42
        ⟨2024, 3, 10, 14, 5, 0⟩ 0 0 ≠
      some ((todayAt ⟨2024, 3, 10, 14, 5, 0⟩ 15 0).toEpoch (0 * 60 * 60)) := by
  constructor
  · rfl
  · intro h
    rw [show get_next_wake_time_leap ⟨-1, -1, -1, -1, 0, 0⟩ 0 42
        ⟨2024, 3, 10, 14, 5, 0⟩ 0 0 = some 42 from rfl] at h
    have : (42 : Int) =
        (todayAt ⟨2024, 3, 10, 14, 5, 0⟩ 15 0).toEpoch (0 * 60 * 60) :=
      Option.some.inj h
    rw [show (todayAt ⟨2024, 3, 10, 14, 5, 0⟩ 15 0).toEpoch (0 * 60 * 60) =
        1710082800 from rfl] at this
    exact absurd this (by decide)

end TimeLeapCam
